import Mathlib

/-!
Verification of the flow-core dataflow engine.

This file gives a shallow embedding, in Lean 4, of the parts of the
flow-core C++ engine that the specification's claims talk about:

* the type registry (`TypeRegistry`, from `src/TypeConversion.cpp`),
* the data box (`NodeData`, modelling `INodeData` with a stable type tag,
  an instance identity and a held value),
* ports (`Port`, from `src/Port.cpp` / `include/flow/core/Port.hpp`),
* nodes and the `InvokeCompute` failure barrier (from `src/Node.cpp`),
* `IndexableName` and its CRC-64 hash (from
  `include/flow/core/IndexableName.hpp`),
* the connections table (from `src/Connections.cpp`),
* the graph: connect, disconnect, propagation and the portable
  serialisation form (from `Graph.cpp`).

Modelling conventions:

* Machine integers (`std::size_t`) are modelled as `Nat` with explicit
  masking where overflow matters; values held in data boxes are modelled
  as `Int`.
* `IndexableName` keys at the graph level are modelled by their name
  strings: the C++ type compares by a 64-bit CRC of the name, which agrees
  with string equality except on hash collisions, and no claim below
  concerns colliding keys.  The hash itself, and the empty-name failure,
  are modelled faithfully further down.
* `UUID` is an opaque identity with byte-wise equality; it is modelled as
  `Nat`.
* Fallible C++ code (a `throw`, or `.at` on a missing key) is modelled
  with `Except` / `Option`; a C++ function that throws across a
  `noexcept` boundary terminates the process, which is modelled as a
  distinct outcome, not as a reported error.
* `std::unordered_map` / `std::unordered_multimap` are modelled as
  association lists in insertion order; every property proved below about
  them is order-insensitive or is about a single key group.
-/

namespace Flow

/-- Reserved conversion target: `TypeName_v<std::any>` as produced by the
compile-time type-name extraction of `TypeName.hpp` on GCC/Clang. -/
def anyTypeName : String := "std::any"

/-- A data box (`INodeData`).  `boxId` models the identity of the concrete
box instance behind the `shared_ptr` (two boxes with different `boxId` are
different heap objects); `typeName` models `Type()`; `val` models the held
value as read and written through `AsPointer` / `FromPointer`. -/
structure NodeData where
  boxId : Nat
  typeName : String
  val : Int
deriving DecidableEq, Repr

/-- A `shared_ptr<INodeData>`: either null or a box. -/
abbrev SharedNodeData := Option NodeData

/-- Error kinds surfaced by the engine (§7 of the spec). -/
inductive FlowErr where
  | notFound
  | conversionMissing (fromType toType : String)
  | invalidArgument (msg : String)
deriving DecidableEq, Repr

/-- A registered conversion function (`TypeRegistry::ConversionFunc`,
a `std::function`); `Option` is not used here, nullness of the stored
`std::function` is recorded in the registry entry itself. -/
abbrev ConversionFunc := SharedNodeData → SharedNodeData

/-- The type registry (`TypeRegistry`): `_conversions` maps a source type
tag to a map from target type tag to a conversion entry.  An entry
`some f` is a registered non-null `std::function`; an entry `none` is a
registered but null `std::function` (the map key exists, the callable does
not).  Keys are stored exactly as registered (reference and const
qualifiers included). -/
structure TypeRegistry where
  conversions : List (String × List (String × Option ConversionFunc))

/-- Strip of a type tag performed by `TypeRegistry::IsConvertible`:
`remove_prefix(starts_with("const") ? 6 : 0)` then, on non-Apple builds,
`remove_suffix(ends_with("&") ? 1 : 0)`.  Stated on the character list of
the tag (the tags are ASCII, so C++ byte positions coincide with
character positions). -/
def stripTypeName (s : String) : String :=
  let cs := s.data
  let cs1 := if cs.take 5 = ['c', 'o', 'n', 's', 't'] then cs.drop 6 else cs
  ⟨if cs1.getLast? = some '&' then cs1.dropLast else cs1⟩

/-- Lookup of the inner conversion map stored under a source tag
(`_conversions.contains` / `_conversions.at`). -/
def TypeRegistry.findFrom (tr : TypeRegistry) (fromType : String) :
    Option (List (String × Option ConversionFunc)) :=
  (tr.conversions.find? (fun p => p.1 == fromType)).map (fun p => p.2)

/-- Lookup of a single conversion entry under raw (unstripped) tags, as
`TypeRegistry::Convert` does: `some (some f)` when a callable is
registered, `some none` when the entry exists but holds a null
`std::function`, `none` when no entry exists. -/
def TypeRegistry.findConversion (tr : TypeRegistry) (fromType toType : String) :
    Option (Option ConversionFunc) :=
  match tr.findFrom fromType with
  | none => none
  | some m => (m.find? (fun p => p.1 == toType)).map (fun p => p.2)

/-- `TypeRegistry::IsConvertible` (TypeConversion.cpp:36-59): strips
`const` prefixes and a trailing `&` from both tags, then answers true on
equal tags, on target `std::any`, or when an entry exists under the
stripped tags (whether or not its callable is null). -/
def TypeRegistry.IsConvertible (tr : TypeRegistry) (fromType toType : String) : Bool :=
  let f := stripTypeName fromType
  let t := stripTypeName toType
  if f == t || t == anyTypeName then true
  else
    match tr.findFrom f with
    | none => false
    | some m => (m.find? (fun p => p.1 == t)).isSome

/-- `TypeRegistry::Convert` (TypeConversion.cpp:10-34).  Null data, or
`IsConvertible` on the box's runtime tag, returns the data unchanged; then
the raw (unstripped) tags are looked up; a missing entry returns the data
unchanged; an entry holding a null callable throws; otherwise the callable
is applied. -/
def TypeRegistry.Convert (tr : TypeRegistry) (data : SharedNodeData) (toType : String) :
    Except FlowErr SharedNodeData :=
  match data with
  | none => .ok none
  | some b =>
    if tr.IsConvertible b.typeName toType then .ok (some b)
    else
      match tr.findFrom b.typeName with
      | none => .ok (some b)
      | some m =>
        match (m.find? (fun p => p.1 == toType)).map (fun p => p.2) with
        | none => .ok (some b)
        | some none => .error (.conversionMissing b.typeName toType)
        | some (some f) => .ok (f (some b))

/-- Copy of the raw value of `src` into box `b` through
`FromPointer(AsPointer())`: the held value changes, the box instance (its
identity and its type tag) is preserved. -/
def NodeData.FromPointer (b : NodeData) (src : NodeData) : NodeData :=
  { b with val := src.val }

/-- A port (`Port`): key, caption, declared type tag (`_type`), held data
box, required flag, connected flag and index. -/
structure Port where
  key : String
  caption : String
  type : String
  data : SharedNodeData
  required : Bool
  connected : Bool
  index : Nat
deriving DecidableEq, Repr

/-- `Port::SetData` (Port.cpp:30-50).  Null incoming data on a required
port is ignored; an empty port, an output write, or null incoming data
replaces the stored pointer; otherwise the incoming value is copied into
the existing box in place. -/
def Port.SetData (p : Port) (data : SharedNodeData) (output : Bool) : Port :=
  if data.isNone && p.required then p
  else if p.data.isNone || data.isNone || output then { p with data := data }
  else
    match p.data, data with
    | some stored, some incoming => { p with data := some (stored.FromPointer incoming) }
    | _, _ => p

/-- `Port::GetDataType` (Port.hpp:166): the runtime tag of the held data
when the port holds a box, the declared type otherwise. -/
def Port.GetDataType (p : Port) : String :=
  match p.data with
  | some d => d.typeName
  | none => p.type

/-! IndexableName: CRC-64-ECMA hash and the empty-name failure
(IndexableName.hpp). -/

/-- CRC-64-ECMA polynomial used by `IndexableName` (0xC96C5795D7870F42). -/
def crc64Poly : Nat := 0xc96c5795d7870f42

/-- One entry of the compile-time `crc_table`: eight rounds of
shift-and-conditional-xor starting from the byte value `c`. -/
def crcTableEntry (c : Nat) : Nat :=
  (List.range 8).foldl
    (fun crc _ =>
      let b := crc % 2
      let crc := crc / 2
      if b = 1 then crc ^^^ crc64Poly else crc)
    c

/-- The 256-entry CRC-64-ECMA lookup table. -/
def crcTable : List Nat := (List.range 256).map crcTableEntry

/-- Bit reversal of a 64-bit value (`reverse_bits`). -/
def reverseBits64 (value : Nat) : Nat :=
  ((List.range 64).foldl
    (fun rv _ => (rv.1 * 2 + rv.2 % 2, rv.2 / 2))
    ((0 : Nat), value)).1

/-- `IndexableName::hash` (IndexableName.hpp:247-261): throws
`std::invalid_argument` on the empty string, otherwise folds the CRC table
over the bytes and bit-reverses the result. -/
def IndexableName.hashOf (str : String) : Except FlowErr Nat :=
  if str.isEmpty then .error (.invalidArgument "IndexableName cannot be empty")
  else
    .ok (reverseBits64
      (str.data.foldl
        (fun crc c => (crcTable.getD ((crc % 256) ^^^ c.toNat) 0) ^^^ (crc / 256))
        0))

/-- An `IndexableName` value: the 64-bit hash and the name it was built
from.  Comparisons and storage use `value` only. -/
structure IndexableName where
  value : Nat
  name : String
deriving DecidableEq, Repr

/-- Outcome of running a C++ constructor whose body may throw.  `thrown`
is an exception that propagates to the caller; `terminated` is an
exception that reached a `noexcept` boundary, where the C++ runtime calls
`std::terminate` instead of unwinding to the caller. -/
inductive CtorOutcome (α : Type) where
  | ok (value : α)
  | thrown (e : FlowErr)
  | terminated (e : FlowErr)
deriving DecidableEq, Repr

/-- The `IndexableName` constructor (IndexableName.hpp:265): it is
declared `constexpr … noexcept` and calls `hash`, so an
`std::invalid_argument` raised by `hash` hits the `noexcept` boundary and
terminates the process rather than reaching the caller. -/
def IndexableName.construct (name : String) : CtorOutcome IndexableName :=
  match IndexableName.hashOf name with
  | .error e => .terminated e
  | .ok v => .ok ⟨v, name⟩

/-! Node compute failure barrier (`Node::InvokeCompute`, Node.cpp:22-47). -/

/-- The kinds of C++ values a `compute` body can throw, matching the catch
clauses of `InvokeCompute`: `std::exception` (carrying its `what()`
message), `std::string`, `const char*`, `int`, and anything else. -/
inductive CppExc where
  | exc (msg : String)
  | strExc (s : String)
  | cstrExc (s : String)
  | intExc (n : Int)
  | other
deriving DecidableEq, Repr

/-- Message carried to `OnError` for each catch clause: `std::exception`
subclasses and their `what()` pass through; strings and C-strings are
wrapped in a `runtime_error` carrying the same text; an `int` is wrapped
as its decimal rendering; anything else becomes a plain
`std::exception`. -/
def CppExc.render : CppExc → String
  | .exc m => m
  | .strExc s => s
  | .cstrExc s => s
  | .intExc n => toString n
  | .other => "std::exception"

/-- Events a node broadcasts around compute. -/
inductive NodeEvent where
  | onCompute
  | onError (msg : String)
deriving DecidableEq, Repr

/-- The try block of `InvokeCompute`: run `Compute()`, then broadcast
`OnCompute`.  An exception from the body escapes the block. -/
def invokeComputeBody (compute : Except CppExc Unit) : Except CppExc (List NodeEvent) :=
  match compute with
  | .ok _ => .ok [NodeEvent.onCompute]
  | .error e => .error e

/-- `Node::InvokeCompute` (Node.cpp:22-47): the try block followed by the
five catch clauses, each broadcasting `OnError` with the rendered
failure. -/
def nodeInvokeCompute (compute : Except CppExc Unit) : Except CppExc (List NodeEvent) :=
  match invokeComputeBody compute with
  | .ok evs => .ok evs
  | .error (.exc m) => .ok [NodeEvent.onError m]
  | .error (.strExc s) => .ok [NodeEvent.onError s]
  | .error (.cstrExc s) => .ok [NodeEvent.onError s]
  | .error (.intExc n) => .ok [NodeEvent.onError (toString n)]
  | .error .other => .ok [NodeEvent.onError "std::exception"]

/-! The graph layer: nodes, the connections table, connect / disconnect,
propagation and serialisation (Graph.cpp, Connections.cpp, Node.cpp). -/

/-- A node identity: 16 random bytes compared byte-wise; modelled as an
opaque natural number. -/
abbrev UUID := Nat

/-- A node (`Node`): identity, class tag, display name, and the two port
maps.  Port maps are modelled as lists keyed by each port's own `key`
field, in insertion order. -/
structure Node where
  id : UUID
  className : String
  name : String
  inputPorts : List Port
  outputPorts : List Port
deriving DecidableEq, Repr

/-- Lookup of an input port (`_input_ports.at(key)`): `none` models the
`std::out_of_range` throw on a missing key. -/
def Node.GetInputPort (n : Node) (key : String) : Option Port :=
  n.inputPorts.find? (fun p => p.key == key)

/-- Lookup of an output port (`_output_ports.at(key)`). -/
def Node.GetOutputPort (n : Node) (key : String) : Option Port :=
  n.outputPorts.find? (fun p => p.key == key)

/-- `Node::GetInputData`: the data held by the named input port. -/
def Node.GetInputData (n : Node) (key : String) : SharedNodeData :=
  (n.GetInputPort key).bind Port.data

/-- `Node::GetOutputData`: the data held by the named output port. -/
def Node.GetOutputData (n : Node) (key : String) : SharedNodeData :=
  (n.GetOutputPort key).bind Port.data

/-- In-place mutation of the input port stored under `key` (the C++ port
is held by `shared_ptr` and mutated through it). -/
def Node.modifyInputPort (n : Node) (key : String) (f : Port → Port) : Node :=
  { n with inputPorts := n.inputPorts.map (fun p => if p.key == key then f p else p) }

/-- In-place mutation of the output port stored under `key`. -/
def Node.modifyOutputPort (n : Node) (key : String) (f : Port → Port) : Node :=
  { n with outputPorts := n.outputPorts.map (fun p => if p.key == key then f p else p) }

/-- `Port::Connect` as it acts on the stored flag: the flag becomes true
(the boolean result, unused by `Graph::ConnectNodes` on the output side,
is not modelled here). -/
def connectPort (p : Port) : Port := { p with connected := true }

/-- `Port::Disconnect` as it acts on the stored flag. -/
def disconnectPort (p : Port) : Port := { p with connected := false }

/-- The combined effect on one node of the two flag updates a successful
`Graph::ConnectNodes` performs (output port of the start node marked
connected, then input port of the end node marked connected). -/
def connectTransform (sId : UUID) (sk : String) (eId : UUID) (ek : String) (n : Node) : Node :=
  if (if n.id == sId then n.modifyOutputPort sk connectPort else n).id == eId then
    (if n.id == sId then n.modifyOutputPort sk connectPort else n).modifyInputPort ek connectPort
  else if n.id == sId then n.modifyOutputPort sk connectPort else n

/-- A connection record.  The C++ `Connection` also carries a fresh random
UUID and a mutex; neither takes part in any claim (connections are
compared as endpoint 4-tuples). -/
structure Connection where
  startNode : UUID
  startPort : String
  endNode : UUID
  endPort : String
deriving DecidableEq, Repr

/-- The connections table (`Connections::_connections`): an
`unordered_multimap` keyed by start node, modelled as a list in insertion
order (iteration order of a key group is modelled as insertion order). -/
abbrev ConnectionList := List Connection

/-- `Connections::Add` (Connections.cpp:8-17): emplace of a new record. -/
def Connections.Add (conns : ConnectionList) (startId : UUID) (startKey : String)
    (endId : UUID) (endKey : String) : ConnectionList :=
  conns ++ [⟨startId, startKey, endId, endKey⟩]

/-- `Connections::FindConnections(id)` (Connections.cpp:48-58): snapshot
of the key group of `id`. -/
def Connections.FindConnections (conns : ConnectionList) (id : UUID) : ConnectionList :=
  conns.filter (fun c => c.startNode == id)

/-- `Connections::FindConnections(id, key)` (Connections.cpp:60-66): the
key group of `id` restricted to records starting at port `key`. -/
def Connections.FindConnectionsByKey (conns : ConnectionList) (id : UUID) (key : String) :
    ConnectionList :=
  (Connections.FindConnections conns id).filter (fun c => c.startPort == key)

/-- `Connections::Remove(start, end)` (Connections.cpp:29-40): within the
key group of `start`, find the first record whose end node is `end` and
erase that single record.  The port keys take no part in the match. -/
def Connections.RemovePair (conns : ConnectionList) (startId endId : UUID) : ConnectionList :=
  let range := Connections.FindConnections conns startId
  if range.isEmpty then conns
  else
    match range.find? (fun c => c.endNode == endId) with
    | none => conns
    | some found => conns.erase found

/-- The graph (`Graph`): node map and connections table.  `tasks` models
the environment's worker-pool queue as seen from this graph: every
`AddTask` performed by `Graph::PropagateConnectionsData` appends one
pending propagation task `(connection, data)`. -/
structure Graph where
  nodes : List Node
  connections : ConnectionList
  tasks : List (Connection × SharedNodeData)
deriving DecidableEq, Repr

/-- The empty graph. -/
def emptyGraph : Graph := ⟨[], [], []⟩

/-- `Graph::GetNode`. -/
def Graph.GetNode (g : Graph) (id : UUID) : Option Node :=
  g.nodes.find? (fun n => n.id == id)

/-- In-place mutation of the node stored under `id` (C++ nodes are held by
`shared_ptr` and mutated through it). -/
def Graph.modifyNode (g : Graph) (id : UUID) (f : Node → Node) : Graph :=
  { g with nodes := g.nodes.map (fun n => if n.id == id then f n else n) }

/-- `Graph::PropagateConnectionsData` (Graph.cpp:257-295): for each
connection leaving `(id, key)`, submit one worker-pool task that will
deliver `data` along that connection. -/
def Graph.PropagateConnectionsData (g : Graph) (id : UUID) (key : String)
    (data : SharedNodeData) : Graph :=
  { g with
    tasks := g.tasks ++
      (Connections.FindConnectionsByKey g.connections id key).map (fun c => (c, data)) }

/-- Result of one `Compute()` call of a node class: the node with its
output ports written, and the list of `EmitUpdate(key, data)` calls the
body made, in order.  Compute bodies used by the claims below do not
throw; the failure barrier itself is verified on `nodeInvokeCompute`. -/
abbrev ComputeFn := Node → Node × List (String × SharedNodeData)

/-- Virtual dispatch of `Compute()` by node class tag. -/
abbrev ComputeModel := String → ComputeFn

/-- A compute body that does nothing (used where a claim does not depend
on what `Compute()` does). -/
def noopComputeModel : ComputeModel := fun _ => fun n => (n, [])

/-- `Node::SetInputData` (Node.cpp:100-110) as it acts through the graph:
store the data into the input port with `SetData` (non-output write),
then, when `compute` is set, run `InvokeCompute`, whose `Compute()` body
writes output ports and whose `EmitUpdate` calls reach
`Graph::PropagateConnectionsData` through the graph's `OnEmitOutput`
binding (Graph.cpp:89-92).  Call sites below only name input ports that
exist, so the `out_of_range` throw of `_input_ports.at` cannot fire. -/
def Graph.nodeSetInputData (model : ComputeModel) (g : Graph) (nodeId : UUID)
    (key : String) (data : SharedNodeData) (compute : Bool) : Graph :=
  let g1 := g.modifyNode nodeId (fun n => n.modifyInputPort key (fun p => p.SetData data false))
  if compute then
    match g1.GetNode nodeId with
    | none => g1
    | some n =>
      let r := model n.className n
      let g2 := g1.modifyNode nodeId (fun _ => r.1)
      r.2.foldl (fun gacc ke => gacc.PropagateConnectionsData nodeId ke.1 ke.2) g2
  else g1

/-- `Graph::ConnectNodes` (Graph.cpp:197-231).  Resolve both nodes (null
gives a null result); resolve both ports (`.at`, a miss throws
`NotFound`); mark the output port connected; try to mark the input port
connected — when it is already connected, return the existing connection
with the same four endpoints if one is stored, else null; otherwise add
the record and, when the output port already holds data, propagate that
data (tasks are enqueued; the new record is already in the table). -/
def Graph.ConnectNodes (g : Graph) (startId : UUID) (startKey : String)
    (endId : UUID) (endKey : String) : Except FlowErr (Graph × Option Connection) :=
  match g.GetNode startId, g.GetNode endId with
  | some inNode, some outNode =>
    match inNode.GetOutputPort startKey, outNode.GetInputPort endKey with
    | some startPort, some endPort =>
      let g1 := g.modifyNode startId (fun n => n.modifyOutputPort startKey connectPort)
      if endPort.connected then
        let conns := Connections.FindConnectionsByKey g1.connections startId startKey
        match conns.find? (fun c => c.endNode == endId && c.endPort == endKey) with
        | some c => .ok (g1, some c)
        | none => .ok (g1, none)
      else
        let g2 := g1.modifyNode endId (fun n => n.modifyInputPort endKey connectPort)
        let conn : Connection := ⟨startId, startPort.key, endId, endPort.key⟩
        let g3 := { g2 with connections := Connections.Add g2.connections startId startPort.key endId endPort.key }
        let g4 :=
          match startPort.data with
          | some d => g3.PropagateConnectionsData startId startKey (some d)
          | none => g3
        .ok (g4, some conn)
    | _, _ => .error .notFound
  | _, _ => .ok (g, none)

/-- `Graph::DisconnectNodes` (Graph.cpp:233-255).  Remove by node pair
first; resolve nodes (null gives a silent return) and ports (`.at`);
clear the output port's flag when no connection leaves that key any more;
clear the input port's flag; clear the end node's input data at that key
(`SetInputData(end_port_key, nullptr)`, which recomputes the node). -/
def Graph.DisconnectNodes (model : ComputeModel) (g : Graph) (startId : UUID)
    (startKey : String) (endId : UUID) (endKey : String) : Except FlowErr Graph :=
  let g0 := { g with connections := Connections.RemovePair g.connections startId endId }
  match g0.GetNode startId, g0.GetNode endId with
  | some inNode, some outNode =>
    match inNode.GetOutputPort startKey, outNode.GetInputPort endKey with
    | some _, some _ =>
      let startConns := Connections.FindConnectionsByKey g0.connections startId startKey
      let g1 :=
        if startConns.isEmpty then
          g0.modifyNode startId (fun n => n.modifyOutputPort startKey disconnectPort)
        else g0
      let g2 := g1.modifyNode endId (fun n => n.modifyInputPort endKey disconnectPort)
      .ok (g2.nodeSetInputData model endId endKey none true)
    | _, _ => .error .notFound
  | _, _ => .ok g0

/-- One worker-pool propagation task (the lambda of
`Graph::PropagateConnectionsData`, Graph.cpp:266-293): resolve the end
node and its input port, convert the carried data to the port's
`GetDataType()` through the factory's registry, and `SetInputData` the
result (recomputing the end node).  A `NotFound` from the port lookup or a
conversion throw is caught by the task's catch-all and reported through
`OnError`, leaving the graph unchanged. -/
def Graph.runTask (tr : TypeRegistry) (model : ComputeModel) (g : Graph)
    (task : Connection × SharedNodeData) : Graph :=
  match g.GetNode task.1.endNode with
  | none => g
  | some node =>
    match node.GetInputPort task.1.endPort with
    | none => g
    | some port =>
      match tr.Convert task.2 port.GetDataType with
      | .error _ => g
      | .ok converted => g.nodeSetInputData model task.1.endNode task.1.endPort converted true

/-- `Env::Wait` over this graph's tasks: run pending tasks to exhaustion,
first submitted first.  In every run below at most one task is ever
pending, so the drain order is immaterial.  `fuel` bounds the number of
tasks run (the worker pool of the source runs however many tasks exist). -/
def Graph.drainTasks (tr : TypeRegistry) (model : ComputeModel) : Nat → Graph → Graph
  | 0, g => g
  | fuel + 1, g =>
    match g.tasks with
    | [] => g
    | t :: rest => Graph.drainTasks tr model fuel (Graph.runTask tr model { g with tasks := rest } t)

/-! Serialisation to and from the portable object form (`to_json` /
`from_json`, Graph.cpp:297-371). -/

/-- One node of the portable form: the `id` / `class` / `name` fields of
`Node::Save` (Node.cpp:49-57).  The `inputs` payload restores port data
through `RestoreInputs` and can alter neither port existence, flags, nor
node identity, which is all this development compares, so it is not
modelled. -/
structure PortableNode where
  id : UUID
  className : String
  name : String
deriving DecidableEq, Repr

/-- One connection of the portable form: `in_id` / `in_var_name` hold the
start endpoint, `out_id` / `out_var_name` the end endpoint
(Graph.cpp:309-314). -/
structure PortableConnection where
  inId : UUID
  inVarName : String
  outId : UUID
  outVarName : String
deriving DecidableEq, Repr

/-- The portable object form of a graph. -/
structure PortableGraph where
  nodes : List PortableNode
  connections : List PortableConnection
deriving DecidableEq, Repr

/-- `to_json(graph)` (Graph.cpp:297-321): each node's save record and each
connection's endpoint 4-tuple. -/
def Graph.toPortable (g : Graph) : PortableGraph :=
  ⟨g.nodes.map (fun n => ⟨n.id, n.className, n.name⟩),
   g.connections.map (fun c => ⟨c.startNode, c.startPort, c.endNode, c.endPort⟩)⟩

/-- A registered node constructor: builds a fresh node (with its class's
ports) from an id and a display name. -/
abbrev NodeCtor := UUID → String → Node

/-- The node factory's constructor map (`NodeFactory::_constructor_map`). -/
abbrev Factory := List (String × NodeCtor)

/-- `NodeFactory::CreateNode`: null on an unregistered class tag. -/
def Factory.CreateNode (f : Factory) (className : String) (id : UUID) (name : String) :
    Option Node :=
  (f.find? (fun p => p.1 == className)).map (fun p => p.2 id name)

/-- `Node::Restore` (Node.cpp:59-74) restricted to the modelled fields:
overwrite id, class tag and display name from the portable record. -/
def Node.Restore (n : Node) (p : PortableNode) : Node :=
  { n with id := p.id, className := p.className, name := p.name }

/-- `Graph::AddNode` (Graph.cpp:83-96): emplace into the node map — a
no-op when the id is already present — and bind the propagation hook
(implicit in this model: propagation is graph-level). -/
def Graph.AddNode (g : Graph) (n : Node) : Graph :=
  if g.nodes.any (fun m => m.id == n.id) then g else { g with nodes := g.nodes ++ [n] }

/-- One iteration of the node loop of `from_json` (Graph.cpp:325-357):
reuse the stored node when the id is already present (restoring it in
place), otherwise build it through the factory; skip unknown classes;
restore and add. -/
def Graph.restoreNode (f : Factory) (g : Graph) (pn : PortableNode) : Graph :=
  match g.GetNode pn.id with
  | some _ => g.modifyNode pn.id (fun n => n.Restore pn)
  | none =>
    match f.CreateNode pn.className pn.id pn.name with
    | none => g
    | some node => g.AddNode (node.Restore pn)

/-- The node loop of `from_json`. -/
def Graph.fromPortableNodes (f : Factory) (g : Graph) (pns : List PortableNode) : Graph :=
  pns.foldl (Graph.restoreNode f) g

/-- The connection loop of `from_json` (Graph.cpp:359-370): re-connect
each stored endpoint 4-tuple through `Graph::ConnectNodes`, ignoring the
returned connection; a `NotFound` thrown by a port lookup escapes
`from_json`. -/
def Graph.fromPortableConns : Graph → List PortableConnection → Except FlowErr Graph
  | g, [] => .ok g
  | g, pc :: rest =>
    match g.ConnectNodes pc.inId pc.inVarName pc.outId pc.outVarName with
    | .error e => .error e
    | .ok r => Graph.fromPortableConns r.1 rest

/-- `from_json(j, g)`: the node loop followed by the connection loop. -/
def Graph.fromPortable (f : Factory) (g : Graph) (p : PortableGraph) :
    Except FlowErr Graph :=
  Graph.fromPortableConns (Graph.fromPortableNodes f g p.nodes) p.connections

/-- The node loop of `from_json` applied to a fresh graph, as the
round-trip `from_portable(to_portable(g))` runs it. -/
def Graph.nodePhase (f : Factory) (g : Graph) : Graph :=
  Graph.fromPortableNodes f emptyGraph (Graph.toPortable g).nodes

/-! Concrete instances used to settle the claims, and the claimed
contracts stated in the spec's own words (to be compared against the
embedded code). -/

/-- A registry with no registered conversions. -/
def emptyRegistry : TypeRegistry := ⟨[]⟩

/-- A conversion callable from float boxes to int boxes: it builds a
fresh box (new identity, tag `int`). -/
def floatToIntConv : ConversionFunc := fun d =>
  match d with
  | some b => some ⟨b.boxId + 100, "int", b.val⟩
  | none => none

/-- A registry holding one registered non-null conversion
`float → int`, under plain (unqualified) tags, as
`RegisterUnidirectionalConversion<float, int>` stores it. -/
def exampleRegistry : TypeRegistry := ⟨[("float", [("int", some floatToIntConv)])]⟩

/-- A float box. -/
def exampleFloatBox : NodeData := ⟨0, "float", 3⟩

/-- A registry whose only entry is registered under a reference-qualified
source tag and holds a null `std::function`. -/
def nullEntryRegistry : TypeRegistry := ⟨[("float&", [("int", none)])]⟩

/-- A box whose runtime tag carries the reference qualifier. -/
def refFloatBox : NodeData := ⟨1, "float&", 2⟩

/-- The contract claim C1 states for `TypeRegistry::Convert`, in the
spec's words: null, same-type and `any`-target boxes pass through; a
registered non-null converter is applied; a missing converter passes the
box through; a registered null entry fails with `ConversionMissing`. -/
def ConvertClaimedContract (tr : TypeRegistry) : Prop :=
  ∀ (b : NodeData) (toType : String),
    (tr.Convert none toType = .ok none)
    ∧ (b.typeName = toType → tr.Convert (some b) toType = .ok (some b))
    ∧ (toType = anyTypeName → tr.Convert (some b) toType = .ok (some b))
    ∧ (∀ f, b.typeName ≠ toType → toType ≠ anyTypeName →
        tr.findConversion b.typeName toType = some (some f) →
        tr.Convert (some b) toType = .ok (f (some b)))
    ∧ (b.typeName ≠ toType → toType ≠ anyTypeName →
        tr.findConversion b.typeName toType = none →
        tr.Convert (some b) toType = .ok (some b))
    ∧ (b.typeName ≠ toType → toType ≠ anyTypeName →
        tr.findConversion b.typeName toType = some none →
        tr.Convert (some b) toType = .error (.conversionMissing b.typeName toType))

/-- Extraction of the graph from a successful graph operation (used only
to build concrete states whose operations are known to succeed). -/
def graphOrEmpty : Except FlowErr Graph → Graph
  | .ok g => g
  | .error _ => emptyGraph

/-- One `ConnectNodes` call used as a state-building step; the state is
kept unchanged if the call fails (never exercised on failing inputs). -/
def connectStep (g : Graph) (s : UUID) (sk : String) (e : UUID) (ek : String) : Graph :=
  match g.ConnectNodes s sk e ek with
  | .ok r => r.1
  | .error _ => g

/-- A node with one output port of type `X`. -/
def xOutNode : Node := ⟨1, "XSrc", "x", [], [⟨"out", "", "X", none, false, false, 0⟩]⟩

/-- A node with one input port of type `Y`. -/
def yInNode : Node := ⟨2, "YSink", "y", [⟨"in", "", "Y", none, false, false, 0⟩], []⟩

/-- A graph holding an `X`-output node and a `Y`-input node and no
connections. -/
def xyGraph : Graph := ⟨[xOutNode, yInNode], [], []⟩

/-- The behaviour claim C2 states for `Graph::ConnectNodes`, in the
spec's words: when the output port's declared type is not convertible to
the input port's declared type, connect returns null and adds no
connection. -/
def ConnectChecksRegistry (tr : TypeRegistry) : Prop :=
  ∀ (g : Graph) (sId eId : UUID) (sk ek : String) (sn en : Node) (sp ep : Port),
    g.GetNode sId = some sn → g.GetNode eId = some en →
    sn.GetOutputPort sk = some sp → en.GetInputPort ek = some ep →
    tr.IsConvertible sp.type ep.type = false →
    ∀ g' c, g.ConnectNodes sId sk eId ek = .ok (g', c) →
      c = none ∧ g'.connections = g.connections

/-- A conversion callable from `X&` boxes to float boxes. -/
def xToFloatConv : ConversionFunc := fun _ => some ⟨50, "float", 1⟩

/-- A conversion callable from `X&` boxes to int boxes. -/
def xToIntConv : ConversionFunc := fun _ => some ⟨60, "int", 2⟩

/-- A registry with conversions registered under the reference-qualified
source tag `X&`, to `float` and to `int` (distinct results). -/
def refXRegistry : TypeRegistry :=
  ⟨[("X&", [("float", some xToFloatConv), ("int", some xToIntConv)])]⟩

/-- An input port declared `int` that currently holds a box whose runtime
tag is `float`. -/
def mixedPort : Port := ⟨"in", "", "int", some ⟨7, "float", 0⟩, false, true, 0⟩

/-- The node holding `mixedPort`. -/
def mixedNode : Node := ⟨2, "Sink", "B", [mixedPort], []⟩

/-- A one-node graph around `mixedNode`. -/
def mixedGraph : Graph := ⟨[mixedNode], [], []⟩

/-- A connection ending at `mixedPort`. -/
def xConn : Connection := ⟨1, "out", 2, "in"⟩

/-- A carried box of runtime tag `X&`. -/
def xBox : NodeData := ⟨9, "X&", 5⟩

/-- The behaviour claim C3 states for a propagation task, in the spec's
words: the carried box is converted to the end port's declared type (the
type the port was constructed with) and the result handed to
`SetInputData`. -/
def TaskConvertsToDeclared (tr : TypeRegistry) (model : ComputeModel) : Prop :=
  ∀ (g : Graph) (conn : Connection) (d : SharedNodeData) (node : Node) (port : Port),
    g.GetNode conn.endNode = some node →
    node.GetInputPort conn.endPort = some port →
    Graph.runTask tr model g (conn, d) =
      (match tr.Convert d port.type with
       | .ok converted => g.nodeSetInputData model conn.endNode conn.endPort converted true
       | .error _ => g)

/-- The claim C8 states for the `IndexableName` constructor, in the
spec's words: construction from the empty string fails with an
`InvalidArgument` error reported to the caller (an exception the caller
can observe). -/
def ReportsEmptyNameToCaller : Prop :=
  ∃ e, IndexableName.construct "" = CtorOutcome.thrown e

/-- Node `A` of the two-incoming-connection sequence: one `int` output
port `ao`. -/
def seqNodeA : Node := ⟨1, "OutA", "A", [], [⟨"ao", "", "int", none, false, false, 0⟩]⟩

/-- Node `B` of the sequence: one `int` input port `bi`. -/
def seqNodeB : Node := ⟨2, "InB", "B", [⟨"bi", "", "int", none, false, false, 0⟩], []⟩

/-- Node `C` of the sequence: one `int` output port `co`. -/
def seqNodeC : Node := ⟨3, "OutC", "C", [], [⟨"co", "", "int", none, false, false, 0⟩]⟩

/-- The initial three-node graph of the sequence. -/
def seqStart : Graph := ⟨[seqNodeA, seqNodeB, seqNodeC], [], []⟩

/-- The operation sequence that defeats the one-incoming-connection
invariant: connect `A.ao → B.bi`; disconnect with the node pair `(C, B)`
and port keys `(co, bi)` — no connection joins `C` to `B`, so nothing is
removed from the table, yet `B.bi`'s connected flag is cleared — then
connect `C.co → B.bi`, which the cleared flag lets through. -/
def seqFinal : Graph :=
  let g1 := connectStep seqStart 1 "ao" 2 "bi"
  let g2 := graphOrEmpty (g1.DisconnectNodes noopComputeModel 3 "co" 2 "bi")
  connectStep g2 3 "co" 2 "bi"

/-- Output node of the parallel-edges pair: two `int` output ports. -/
def parNodeA : Node :=
  ⟨10, "Out2", "A", [],
   [⟨"o1", "", "int", none, false, false, 0⟩, ⟨"o2", "", "int", none, false, false, 1⟩]⟩

/-- Input node of the parallel-edges pair: two `int` input ports. -/
def parNodeB : Node :=
  ⟨20, "In2", "B",
   [⟨"i1", "", "int", none, false, false, 0⟩, ⟨"i2", "", "int", none, false, false, 1⟩], []⟩

/-- A graph with two parallel connections between the same ordered node
pair, on different ports: `A.o1 → B.i1` stored first, `A.o2 → B.i2`
stored second. -/
def parGraph : Graph :=
  connectStep (connectStep ⟨[parNodeA, parNodeB], [], []⟩ 10 "o1" 20 "i1") 10 "o2" 20 "i2"

/-- An `int` input port named `in`, initially empty. -/
def intInPort : Port := ⟨"in", "", "int", none, false, false, 0⟩

/-- An `int` output port named `out`, initially empty. -/
def intOutPort : Port := ⟨"out", "", "int", none, false, false, 0⟩

/-- Chain node `A`. -/
def chainNodeA : Node := ⟨1, "PassthroughInt", "A", [intInPort], [intOutPort]⟩

/-- Chain node `B`. -/
def chainNodeB : Node := ⟨2, "PassthroughInt", "B", [intInPort], [intOutPort]⟩

/-- Chain node `C`. -/
def chainNodeC : Node := ⟨3, "PassthroughInt", "C", [intInPort], [intOutPort]⟩

/-- The compute body of the pass-through class: copy the box held by
input `in` to output `out` (an output write) and emit it. -/
def passthroughCompute : ComputeFn := fun n =>
  match n.GetInputData "in" with
  | none => (n, [])
  | some d => (n.modifyOutputPort "out" (fun p => p.SetData (some d) true), [("out", some d)])

/-- Class dispatch for the chain: every class computes pass-through. -/
def chainModel : ComputeModel := fun _ => passthroughCompute

/-- The chain `A → B → C` built by two connect calls. -/
def chainGraph : Graph :=
  connectStep (connectStep ⟨[chainNodeA, chainNodeB, chainNodeC], [], []⟩ 1 "out" 2 "in")
    2 "out" 3 "in"

/-- The box seeded into the chain. -/
def chainBox (v : Int) : NodeData := ⟨0, "int", v⟩

/-- The two connections of the chain. -/
def chainConns : ConnectionList := [⟨1, "out", 2, "in"⟩, ⟨2, "out", 3, "in"⟩]

/-- Chain node `A` as it stands inside the connected chain. -/
def chainA0 : Node :=
  ⟨1, "PassthroughInt", "A",
   [⟨"in", "", "int", none, false, false, 0⟩],
   [⟨"out", "", "int", none, false, true, 0⟩]⟩

/-- Chain node `B` as it stands inside the connected chain. -/
def chainB0 : Node :=
  ⟨2, "PassthroughInt", "B",
   [⟨"in", "", "int", none, false, true, 0⟩],
   [⟨"out", "", "int", none, false, true, 0⟩]⟩

/-- Chain node `C` as it stands inside the connected chain. -/
def chainC0 : Node :=
  ⟨3, "PassthroughInt", "C",
   [⟨"in", "", "int", none, false, true, 0⟩],
   [⟨"out", "", "int", none, false, false, 0⟩]⟩

/-- The connected chain, written out. -/
def chainS0 : Graph := ⟨[chainA0, chainB0, chainC0], chainConns, []⟩

/-- Node `A` after the seed: input stored and compute done. -/
def chainAv (v : Int) : Node :=
  ⟨1, "PassthroughInt", "A",
   [⟨"in", "", "int", some (chainBox v), false, false, 0⟩],
   [⟨"out", "", "int", some (chainBox v), false, true, 0⟩]⟩

/-- Node `B` after its delivery and compute. -/
def chainBv (v : Int) : Node :=
  ⟨2, "PassthroughInt", "B",
   [⟨"in", "", "int", some (chainBox v), false, true, 0⟩],
   [⟨"out", "", "int", some (chainBox v), false, true, 0⟩]⟩

/-- Node `C` after its delivery and compute. -/
def chainCv (v : Int) : Node :=
  ⟨3, "PassthroughInt", "C",
   [⟨"in", "", "int", some (chainBox v), false, true, 0⟩],
   [⟨"out", "", "int", some (chainBox v), false, false, 0⟩]⟩

/-- Chain state after seeding `A`: one delivery task pending on the
`A → B` connection. -/
def chainS1 (v : Int) : Graph :=
  ⟨[chainAv v, chainB0, chainC0], chainConns, [(⟨1, "out", 2, "in"⟩, some (chainBox v))]⟩

/-- `chainS1` with its task popped for execution. -/
def chainS1x (v : Int) : Graph := ⟨[chainAv v, chainB0, chainC0], chainConns, []⟩

/-- Chain state after the first delivery: one task pending on `B → C`. -/
def chainS2 (v : Int) : Graph :=
  ⟨[chainAv v, chainBv v, chainC0], chainConns, [(⟨2, "out", 3, "in"⟩, some (chainBox v))]⟩

/-- `chainS2` with its task popped for execution. -/
def chainS2x (v : Int) : Graph := ⟨[chainAv v, chainBv v, chainC0], chainConns, []⟩

/-- Chain state after the second delivery: queue drained. -/
def chainS3 (v : Int) : Graph := ⟨[chainAv v, chainBv v, chainCv v], chainConns, []⟩

/-- Constructor of the registered class `OutA`. -/
def rtCtorA : NodeCtor := fun id name =>
  ⟨id, "OutA", name, [], [⟨"ao", "", "int", none, false, false, 0⟩]⟩

/-- Constructor of the registered class `InB`. -/
def rtCtorB : NodeCtor := fun id name =>
  ⟨id, "InB", name, [⟨"bi", "", "int", none, false, false, 0⟩], []⟩

/-- Constructor of the registered class `OutC`. -/
def rtCtorC : NodeCtor := fun id name =>
  ⟨id, "OutC", name, [], [⟨"co", "", "int", none, false, false, 0⟩]⟩

/-- A factory with the three classes of the sequence graph registered. -/
def rtFactory : Factory := [("OutA", rtCtorA), ("InB", rtCtorB), ("OutC", rtCtorC)]

/-- The round-trip property claim C6 states, in the spec's words: for
every graph whose node classes are registered, deserialising the
serialised portable form succeeds and preserves the node-UUID set and the
connection 4-tuple set. -/
def ClaimedRoundTrip (f : Factory) : Prop :=
  ∀ g : Graph,
    (∀ n ∈ g.nodes, (f.find? (fun p => p.1 == n.className)).isSome = true) →
    ∃ g', Graph.fromPortable f emptyGraph (Graph.toPortable g) = .ok g'
      ∧ (∀ u : UUID, u ∈ g'.nodes.map Node.id ↔ u ∈ g.nodes.map Node.id)
      ∧ (∀ c : Connection, c ∈ g'.connections ↔ c ∈ g.connections)

/-- A two-node graph, built from factory-constructed nodes and one
connect call, used to exercise the round-trip theorem. -/
def rtSmallGraph : Graph :=
  let a := (rtFactory.CreateNode "OutA" 1 "A").getD seqNodeA
  let b := (rtFactory.CreateNode "InB" 2 "B").getD seqNodeB
  connectStep ((emptyGraph.AddNode a).AddNode b) 1 "ao" 2 "bi"

/-- What `from_portable(to_portable(seqFinal))` produces: the second
connection ending at the already-connected input `B.bi` is dropped by
`ConnectNodes` during deserialisation. -/
def rtBroken : Graph :=
  ⟨[⟨1, "OutA", "A", [], [⟨"ao", "", "int", none, false, true, 0⟩]⟩,
    ⟨2, "InB", "B", [⟨"bi", "", "int", none, false, true, 0⟩], []⟩,
    ⟨3, "OutC", "C", [], [⟨"co", "", "int", none, false, true, 0⟩]⟩],
   [⟨1, "ao", 2, "bi"⟩], []⟩

/-! Theorems. -/

/-- Counterexample for claim C1: with the `float → int` converter
registered under plain tags, `TypeRegistry::Convert` hands the float box
back unchanged instead of applying the registered converter, so the
claimed contract fails on `exampleRegistry` at the box `⟨0, float, 3⟩`
and target `int`. -/
theorem convert_claimed_contract_fails : ¬ ConvertClaimedContract exampleRegistry := by
  intro h
  have h3 := (h exampleFloatBox "int").2.2.2.1 floatToIntConv (by decide) (by decide) rfl
  have h4 : exampleRegistry.Convert (some exampleFloatBox) "int" = .ok (some exampleFloatBox) :=
    rfl
  rw [h4] at h3
  have h5 : (some exampleFloatBox : SharedNodeData) = floatToIntConv (some exampleFloatBox) := by
    injection h3
  have h6 : floatToIntConv (some exampleFloatBox) = some ⟨100, "int", 3⟩ := rfl
  rw [h6] at h5
  exact absurd h5 (by decide)

/-- Claim C1 (corrected): `Convert` returns the box unchanged whenever
`IsConvertible` answers true on the box's tag and the target — identity,
`any` target, or any conversion registered under the stripped tags — and
only when that check fails does it consult the raw-tag entry: applying a
registered callable, passing the box through when no entry exists, and
failing with `ConversionMissing` when the entry holds a null callable. -/
theorem convert_follows_isConvertible (tr : TypeRegistry) (b : NodeData) (toType : String) :
    (tr.Convert none toType = .ok none)
    ∧ (tr.IsConvertible b.typeName toType = true →
        tr.Convert (some b) toType = .ok (some b))
    ∧ (tr.IsConvertible b.typeName toType = false →
        tr.findConversion b.typeName toType = none →
        tr.Convert (some b) toType = .ok (some b))
    ∧ (∀ f, tr.IsConvertible b.typeName toType = false →
        tr.findConversion b.typeName toType = some (some f) →
        tr.Convert (some b) toType = .ok (f (some b)))
    ∧ (tr.IsConvertible b.typeName toType = false →
        tr.findConversion b.typeName toType = some none →
        tr.Convert (some b) toType = .error (.conversionMissing b.typeName toType)) := by
  refine ⟨rfl, ?_, ?_, ?_, ?_⟩
  · intro hc
    simp [TypeRegistry.Convert, hc]
  · intro hc hf
    rcases hfrom : tr.findFrom b.typeName with _ | m
    · simp [TypeRegistry.Convert, hc, hfrom]
    · simp only [TypeRegistry.findConversion, hfrom] at hf
      simp [TypeRegistry.Convert, hc, hfrom, hf]
  · intro f hc hf
    rcases hfrom : tr.findFrom b.typeName with _ | m
    · simp only [TypeRegistry.findConversion, hfrom] at hf
      exact Option.noConfusion hf
    · simp only [TypeRegistry.findConversion, hfrom] at hf
      simp [TypeRegistry.Convert, hc, hfrom, hf]
  · intro hc hf
    rcases hfrom : tr.findFrom b.typeName with _ | m
    · simp only [TypeRegistry.findConversion, hfrom] at hf
      exact Option.noConfusion hf
    · simp only [TypeRegistry.findConversion, hfrom] at hf
      simp [TypeRegistry.Convert, hc, hfrom, hf]

/-- Witness for the corrected C1 theorem at concrete inputs: the
registered-converter short-circuit, the no-entry pass-through, and the
null-entry failure. -/
theorem convert_follows_isConvertible_witness :
    exampleRegistry.Convert (some exampleFloatBox) "int" = .ok (some exampleFloatBox)
    ∧ emptyRegistry.Convert (some exampleFloatBox) "X" = .ok (some exampleFloatBox)
    ∧ nullEntryRegistry.Convert (some refFloatBox) "int" =
        .error (.conversionMissing "float&" "int") := by
  refine ⟨?_, ?_, ?_⟩
  · exact (convert_follows_isConvertible exampleRegistry exampleFloatBox "int").2.1 (by decide)
  · exact (convert_follows_isConvertible emptyRegistry exampleFloatBox "X").2.2.1
      (by decide) rfl
  · exact (convert_follows_isConvertible nullEntryRegistry refFloatBox "int").2.2.2.2
      (by decide) rfl

/-- Claim C4 (confirmed): `Port::SetData` is a no-op on a required port
given null data; it stores the incoming pointer when the stored box is
null, the write is an output write, or the incoming box is null; and
otherwise it copies the incoming value into the existing box in place,
preserving the stored instance's identity and type tag. -/
theorem port_setData_contract (p : Port) (d : SharedNodeData) (output : Bool) :
    (p.required = true → d = none → p.SetData d output = p)
    ∧ ((p.data = none ∨ output = true ∨ d = none) → (d = none → p.required = false) →
        p.SetData d output = { p with data := d })
    ∧ (∀ stored incoming, p.data = some stored → d = some incoming → output = false →
        p.SetData d output =
          { p with data := some ⟨stored.boxId, stored.typeName, incoming.val⟩ }) := by
  refine ⟨?_, ?_, ?_⟩
  · intro hreq hd
    subst hd
    simp [Port.SetData, hreq]
  · intro hcase himp
    rcases d with _ | x
    · have hreq := himp rfl
      simp [Port.SetData, hreq]
    · rcases hcase with hpd | hout | hd
      · simp [Port.SetData, hpd]
      · subst hout
        rcases hpd : p.data with _ | y <;> simp [Port.SetData, hpd]
      · exact absurd hd (by simp)
  · intro stored incoming hpd hd hout
    subst hd
    subst hout
    simp [Port.SetData, hpd, NodeData.FromPointer]

/-- Witness for C4 at concrete ports: the required-null no-op, a
store-by-reference into an empty port, and an in-place value copy that
keeps the stored box's identity. -/
theorem port_setData_contract_witness :
    (Port.SetData ⟨"r", "", "int&", some ⟨4, "int", 1⟩, true, false, 0⟩ none false
        = ⟨"r", "", "int&", some ⟨4, "int", 1⟩, true, false, 0⟩)
    ∧ (Port.SetData ⟨"a", "", "int", none, false, false, 0⟩ (some ⟨5, "int", 2⟩) false
        = ⟨"a", "", "int", some ⟨5, "int", 2⟩, false, false, 0⟩)
    ∧ (Port.SetData ⟨"b", "", "int", some ⟨6, "int", 3⟩, false, false, 0⟩ (some ⟨7, "int", 9⟩) false
        = ⟨"b", "", "int", some ⟨6, "int", 9⟩, false, false, 0⟩) := by
  refine ⟨?_, ?_, ?_⟩
  · exact (port_setData_contract _ none false).1 rfl rfl
  · exact (port_setData_contract _ (some ⟨5, "int", 2⟩) false).2.1 (Or.inl rfl)
      (fun h => Option.noConfusion h)
  · exact (port_setData_contract _ (some ⟨7, "int", 9⟩) false).2.2 ⟨6, "int", 3⟩ ⟨7, "int", 9⟩
      rfl rfl rfl

/-- Claim C7 (confirmed): `Node::InvokeCompute` always returns to its
caller without a propagating failure; a normal `Compute()` emits
`OnCompute`, and every kind of thrown failure is caught and emitted as
`OnError` with its rendered message. -/
theorem invokeCompute_total (compute : Except CppExc Unit) :
    ∃ evs, nodeInvokeCompute compute = .ok evs
      ∧ (compute = .ok () → evs = [NodeEvent.onCompute])
      ∧ (∀ e, compute = .error e → evs = [NodeEvent.onError e.render]) := by
  rcases compute with e | u
  · refine ⟨[NodeEvent.onError e.render], ?_, ?_, ?_⟩
    · rcases e with m | s | s | n | _ <;> rfl
    · intro h
      cases h
    · intro e2 h
      cases h
      rfl
  · exact ⟨[NodeEvent.onCompute], rfl, fun _ => rfl, fun e h => by cases h⟩

/-- Witness for C7 at a concrete failing compute body: a thrown `int` is
caught and reported as `OnError` with its decimal rendering. -/
theorem invokeCompute_total_witness :
    nodeInvokeCompute (Except.error (CppExc.intExc 7)) = .ok [NodeEvent.onError "7"] := by
  obtain ⟨evs, hok, _, herr⟩ := invokeCompute_total (Except.error (CppExc.intExc 7))
  rw [herr (CppExc.intExc 7) rfl] at hok
  exact hok

/-- Counterexample for claim C8: constructing an `IndexableName` from the
empty string never surfaces a thrown error to the caller — the
`noexcept` constructor terminates the process instead. -/
theorem emptyName_not_reported : ¬ ReportsEmptyNameToCaller := by
  rintro ⟨e, h⟩
  rw [show IndexableName.construct "" =
        CtorOutcome.terminated (.invalidArgument "IndexableName cannot be empty") from rfl] at h
  cases h

/-- Claim C8 (corrected): constructing an `IndexableName` from the empty
string does fail — `hash` raises `InvalidArgument` — but the constructor
is declared `noexcept`, so the failure is not reported to the caller: the
process terminates (and in constant evaluation the program is rejected at
compile time). -/
theorem emptyName_terminates :
    IndexableName.hashOf "" = .error (.invalidArgument "IndexableName cannot be empty")
    ∧ IndexableName.construct "" =
        CtorOutcome.terminated (.invalidArgument "IndexableName cannot be empty") :=
  ⟨rfl, rfl⟩

/-- Finding inside a filtered list is finding with the conjoined
predicate. -/
theorem find?_filter_comm {α : Type} (l : List α) (q r : α → Bool) :
    (l.filter q).find? r = l.find? (fun a => q a && r a) := by
  induction l with
  | nil => rfl
  | cons c cs ih =>
    cases hq : q c <;> cases hr : r c <;>
      simp [List.filter_cons, List.find?_cons, hq, hr, ih]

/-- Erasing the element `find?` located erases the first element
satisfying the predicate. -/
theorem erase_of_find?_eq_some {α : Type} [DecidableEq α] {l : List α} {p : α → Bool} {a : α}
    (h : l.find? p = some a) : l.erase a = l.eraseP p := by
  induction l with
  | nil => cases h
  | cons c cs ih =>
    cases hp : p c
    · have h2 : cs.find? p = some a := by
        rw [List.find?_cons, hp] at h
        exact h
      have hpa : p a = true := List.find?_some h2
      have hne : (c == a) = false := by
        rcases hbe : c == a with _ | _
        · rfl
        · have hca : c = a := by simpa using hbe
          rw [hca, hpa] at hp
          cases hp
      rw [List.erase_cons, hne, List.eraseP_cons, hp, ih h2]
      simp
    · have hca : c = a := by
        rw [List.find?_cons, hp] at h
        simpa using h
      subst hca
      rw [List.erase_cons, List.eraseP_cons, hp]
      simp

/-- When nothing satisfies the predicate, `eraseP` leaves the list
unchanged. -/
theorem eraseP_of_find?_eq_none {α : Type} {l : List α} {p : α → Bool}
    (h : l.find? p = none) : l.eraseP p = l := by
  apply List.eraseP_of_forall_not
  intro a ha
  have := List.find?_eq_none.mp h a ha
  simpa using this

/-- `Connections::Remove(start, end)` erases exactly the first stored
record matching the node pair, regardless of port keys. -/
theorem removePair_eq_eraseP (conns : ConnectionList) (s e : UUID) :
    Connections.RemovePair conns s e =
      conns.eraseP (fun c => c.startNode == s && c.endNode == e) := by
  have hkey := find?_filter_comm conns (fun c => c.startNode == s) (fun c => c.endNode == e)
  unfold Connections.RemovePair Connections.FindConnections
  by_cases hE : (conns.filter (fun c => c.startNode == s)).isEmpty
  · rw [if_pos hE]
    have hfil : (conns.filter (fun c => c.startNode == s)) = [] := by
      simpa [List.isEmpty_iff] using hE
    rw [hfil] at hkey
    exact (eraseP_of_find?_eq_none hkey.symm).symm
  · rw [if_neg hE]
    rcases hf : (conns.filter (fun c => c.startNode == s)).find? (fun c => c.endNode == e)
      with _ | found
    · rw [hf]
      rw [hf] at hkey
      exact (eraseP_of_find?_eq_none hkey.symm).symm
    · rw [hf]
      rw [hf] at hkey
      exact erase_of_find?_eq_some hkey.symm

/-- Claim C10 (confirmed): `Graph::DisconnectNodes` removes by node pair
only — `Connections::Remove(start, end)` erases the first stored record
with that start and end node, ignoring the port keys — so on a graph with
two parallel connections between the same ordered node pair,
disconnecting the second-stored pair of ports removes the first-stored
connection and leaves the very connection that was named. -/
theorem disconnect_matches_by_node_pair :
    (∀ (conns : ConnectionList) (s e : UUID),
      Connections.RemovePair conns s e =
        conns.eraseP (fun c => c.startNode == s && c.endNode == e))
    ∧ parGraph.connections = [⟨10, "o1", 20, "i1"⟩, ⟨10, "o2", 20, "i2"⟩]
    ∧ (graphOrEmpty (parGraph.DisconnectNodes noopComputeModel 10 "o2" 20 "i2")).connections
        = [⟨10, "o2", 20, "i2"⟩] :=
  ⟨removePair_eq_eraseP, by decide, by decide⟩

/-- The port `find?` locates under a key carries that key. -/
theorem getOutputPort_key {n : Node} {k : String} {p : Port}
    (h : n.GetOutputPort k = some p) : p.key = k := by
  have := List.find?_some h
  simpa using this

/-- The input-port variant of `getOutputPort_key`. -/
theorem getInputPort_key {n : Node} {k : String} {p : Port}
    (h : n.GetInputPort k = some p) : p.key = k := by
  have := List.find?_some h
  simpa using this

/-- The node `find?` locates under an id carries that id. -/
theorem getNode_id {g : Graph} {i : UUID} {n : Node}
    (h : g.GetNode i = some n) : n.id = i := by
  have := List.find?_some h
  simpa using this

/-- Characterisation of a successful `Graph::ConnectNodes` call: when
both nodes and both ports exist and the input port is not yet connected,
the call returns the new connection, appends it to the table, and updates
exactly the two `connected` flags.  No type registry is consulted —
`ConnectNodes` takes none. -/
theorem connectNodes_success (g : Graph) (sId eId : UUID) (sk ek : String)
    (sn en : Node) (sp ep : Port)
    (hs : g.GetNode sId = some sn) (he : g.GetNode eId = some en)
    (hsp : sn.GetOutputPort sk = some sp) (hep : en.GetInputPort ek = some ep)
    (hflag : ep.connected = false) :
    ∃ g', g.ConnectNodes sId sk eId ek = .ok (g', some ⟨sId, sk, eId, ek⟩)
      ∧ g'.connections = g.connections ++ [⟨sId, sk, eId, ek⟩]
      ∧ g'.nodes = g.nodes.map (connectTransform sId sk eId ek) := by
  have hkey1 : sp.key = sk := getOutputPort_key hsp
  have hkey2 : ep.key = ek := getInputPort_key hep
  simp only [Graph.ConnectNodes, hs, he, hsp, hep, hflag, hkey1, hkey2]
  rcases hd : sp.data with _ | d <;>
    exact ⟨_, rfl, by simp [Connections.Add, Graph.modifyNode, Graph.PropagateConnectionsData],
      by
        simp [Graph.modifyNode, Graph.PropagateConnectionsData, List.map_map]
        intro a _
        simp [connectTransform]⟩

/-- Counterexample for claim C2: with no conversions registered — `X` is
not convertible to `Y` — connecting the `X`-output to the `Y`-input
succeeds and inserts the connection, so the claimed refusal fails. -/
theorem connect_type_check_fails : ¬ ConnectChecksRegistry emptyRegistry := by
  intro h
  have h2 := h xyGraph 1 2 "out" "in" xOutNode yInNode
    ⟨"out", "", "X", none, false, false, 0⟩ ⟨"in", "", "Y", none, false, false, 0⟩
    rfl rfl rfl rfl (by decide)
  have h3 := h2 (connectStep xyGraph 1 "out" 2 "in") (some ⟨1, "out", 2, "in"⟩) rfl
  exact Option.noConfusion h3.1

/-- Claim C2 (corrected): `Graph::ConnectNodes` consults no type registry
(its definition takes none, and the declared `CanConnectNode` has no
definition in the source): whenever both nodes and both ports exist and
the input port is not already connected, it inserts the connection and
returns it, whatever the two port types are. -/
theorem connectNodes_ignores_types (g : Graph) (sId eId : UUID) (sk ek : String)
    (sn en : Node) (sp ep : Port)
    (hs : g.GetNode sId = some sn) (he : g.GetNode eId = some en)
    (hsp : sn.GetOutputPort sk = some sp) (hep : en.GetInputPort ek = some ep)
    (hflag : ep.connected = false) :
    ∃ g', g.ConnectNodes sId sk eId ek = .ok (g', some ⟨sId, sk, eId, ek⟩)
      ∧ g'.connections = g.connections ++ [⟨sId, sk, eId, ek⟩] := by
  obtain ⟨g', h1, h2, _⟩ := connectNodes_success g sId eId sk ek sn en sp ep hs he hsp hep hflag
  exact ⟨g', h1, h2⟩

/-- Witness for the corrected C2 theorem: the inconvertible `X → Y`
connection goes through on the concrete two-node graph. -/
theorem connectNodes_ignores_types_witness :
    ∃ g', xyGraph.ConnectNodes 1 "out" 2 "in" = .ok (g', some ⟨1, "out", 2, "in"⟩)
      ∧ g'.connections = xyGraph.connections ++ [⟨1, "out", 2, "in"⟩] :=
  connectNodes_ignores_types xyGraph 1 2 "out" "in" xOutNode yInNode
    ⟨"out", "", "X", none, false, false, 0⟩ ⟨"in", "", "Y", none, false, false, 0⟩
    rfl rfl rfl rfl rfl

/-- Claim C5 (code_bug): the one-incoming-connection invariant does not
survive all operation sequences.  After `connect(A.ao → B.bi)`, a
disconnect naming the pair `(C, B)` removes nothing from the table — no
stored connection joins `C` to `B` — yet unconditionally clears `B.bi`'s
connected flag; a following `connect(C.co → B.bi)` then passes the guard
and inserts a second connection ending at input port `B.bi`. -/
theorem input_port_gains_two_connections :
    seqFinal.connections = [⟨1, "ao", 2, "bi"⟩, ⟨3, "co", 2, "bi"⟩]
    ∧ (seqFinal.connections.filter (fun c => c.endNode == 2 && c.endPort == "bi")).length = 2 :=
  ⟨by decide, by decide⟩

/-- Counterexample for claim C3: with the end port holding a
`float`-tagged box behind an `int` declaration, the propagation task
converts the carried `X&` box through the `X& → float` entry — the
port's current data type — rather than the `X& → int` entry named by the
declared type, and the delivered value differs. -/
theorem task_declared_type_fails : ¬ TaskConvertsToDeclared refXRegistry noopComputeModel := by
  intro h
  exact absurd (h mixedGraph xConn (some xBox) mixedNode mixedPort rfl rfl) (by decide)

/-- Claim C3 (corrected): a propagation task converts the carried box to
the end port's `GetDataType()` and hands the result to `SetInputData`;
`GetDataType()` is the runtime tag of whatever box the port currently
holds, and falls back to the declared type only when the port is
empty. -/
theorem task_converts_to_current_type (tr : TypeRegistry) (model : ComputeModel)
    (g : Graph) (conn : Connection) (d : SharedNodeData) (node : Node) (port : Port)
    (hn : g.GetNode conn.endNode = some node)
    (hp : node.GetInputPort conn.endPort = some port) :
    (Graph.runTask tr model g (conn, d) =
      (match tr.Convert d port.GetDataType with
       | .ok converted => g.nodeSetInputData model conn.endNode conn.endPort converted true
       | .error _ => g))
    ∧ (port.data = none → port.GetDataType = port.type)
    ∧ (∀ b, port.data = some b → port.GetDataType = b.typeName) := by
  refine ⟨?_, ?_, ?_⟩
  · simp only [Graph.runTask, hn, hp]
    rcases tr.Convert d port.GetDataType with e | c <;> rfl
  · intro h0
    simp [Port.GetDataType, h0]
  · intro b hb
    simp [Port.GetDataType, hb]

/-- Witness for the corrected C3 theorem at the concrete mixed-type
state. -/
theorem task_converts_to_current_type_witness :
    Graph.runTask refXRegistry noopComputeModel mixedGraph (xConn, some xBox) =
      (match refXRegistry.Convert (some xBox) mixedPort.GetDataType with
       | .ok converted =>
          mixedGraph.nodeSetInputData noopComputeModel xConn.endNode xConn.endPort converted true
       | .error _ => mixedGraph) :=
  (task_converts_to_current_type refXRegistry noopComputeModel mixedGraph xConn (some xBox)
    mixedNode mixedPort rfl rfl).1

/-- Claim C9 (confirmed): on the chain `A → B → C` of pass-through int
nodes, seeding an input on `A` computes `A`, and draining the worker
queue (`env.wait`) delivers the box `A` produced through both
connections: `C`'s input port ends up holding a value equal to the value
`A`'s compute produced, and the queue is empty.  At every step of this
run at most one task is pending, so the drain order is the only possible
schedule. -/
theorem chain_delivers_value (v : Int) :
    ((Graph.drainTasks emptyRegistry chainModel 4
        (Graph.nodeSetInputData chainModel chainGraph 1 "in" (some (chainBox v)) true)).GetNode
          1).bind (fun n => n.GetOutputData "out") = some (chainBox v)
    ∧ ((Graph.drainTasks emptyRegistry chainModel 4
        (Graph.nodeSetInputData chainModel chainGraph 1 "in" (some (chainBox v)) true)).GetNode
          3).bind (fun n => n.GetInputData "in") = some (chainBox v)
    ∧ (Graph.drainTasks emptyRegistry chainModel 4
        (Graph.nodeSetInputData chainModel chainGraph 1 "in" (some (chainBox v)) true)).tasks
        = [] := by
  have h0 : chainGraph = chainS0 := by decide
  have h1 : Graph.nodeSetInputData chainModel chainS0 1 "in" (some (chainBox v)) true
      = chainS1 v := rfl
  have hr1 : Graph.runTask emptyRegistry chainModel (chainS1x v)
      (⟨1, "out", 2, "in"⟩, some (chainBox v)) = chainS2 v := rfl
  have hr2 : Graph.runTask emptyRegistry chainModel (chainS2x v)
      (⟨2, "out", 3, "in"⟩, some (chainBox v)) = chainS3 v := rfl
  have hd : Graph.drainTasks emptyRegistry chainModel 4 (chainS1 v) = chainS3 v := by
    have e1 : Graph.drainTasks emptyRegistry chainModel 4 (chainS1 v)
        = Graph.drainTasks emptyRegistry chainModel 3
            (Graph.runTask emptyRegistry chainModel (chainS1x v)
              (⟨1, "out", 2, "in"⟩, some (chainBox v))) := rfl
    rw [e1, hr1]
    have e2 : Graph.drainTasks emptyRegistry chainModel 3 (chainS2 v)
        = Graph.drainTasks emptyRegistry chainModel 2
            (Graph.runTask emptyRegistry chainModel (chainS2x v)
              (⟨2, "out", 3, "in"⟩, some (chainBox v))) := rfl
    rw [e2, hr2]
    rfl
  rw [h0, h1, hd]
  exact ⟨rfl, rfl, rfl⟩

/-- Mapping a function that does not disturb the predicate commutes with
`find?`. -/
theorem find?_map_congr {α : Type} (l : List α) (p : α → Bool) (F : α → α)
    (hF : ∀ a, p (F a) = p a) : (l.map F).find? p = (l.find? p).map F := by
  have hc : (p ∘ F) = p := funext hF
  rw [List.find?_map, hc]

/-- Looking a node up after an id-preserving in-place modification. -/
theorem getNode_modifyNode (g : Graph) (i : UUID) (f : Node → Node)
    (hf : ∀ n, (f n).id = n.id) (j : UUID) :
    (g.modifyNode i f).GetNode j
      = (g.GetNode j).map (fun n => if n.id == i then f n else n) := by
  unfold Graph.modifyNode Graph.GetNode
  exact find?_map_congr _ _ _
    (fun n => by by_cases h : (n.id == i) = true <;> simp [h, hf])

/-- Looking an output port up after a key-preserving in-place
modification. -/
theorem getOutputPort_modifyOutputPort (n : Node) (k : String) (f : Port → Port)
    (hf : ∀ p, (f p).key = p.key) (k' : String) :
    (n.modifyOutputPort k f).GetOutputPort k'
      = (n.GetOutputPort k').map (fun p => if p.key == k then f p else p) := by
  unfold Node.modifyOutputPort Node.GetOutputPort
  exact find?_map_congr _ _ _
    (fun p => by by_cases h : (p.key == k) = true <;> simp [h, hf])

/-- Looking an input port up after a key-preserving in-place
modification. -/
theorem getInputPort_modifyInputPort (n : Node) (k : String) (f : Port → Port)
    (hf : ∀ p, (f p).key = p.key) (k' : String) :
    (n.modifyInputPort k f).GetInputPort k'
      = (n.GetInputPort k').map (fun p => if p.key == k then f p else p) := by
  unfold Node.modifyInputPort Node.GetInputPort
  exact find?_map_congr _ _ _
    (fun p => by by_cases h : (p.key == k) = true <;> simp [h, hf])

/-- Modifying input ports leaves output-port lookups unchanged. -/
theorem getOutputPort_modifyInputPort (n : Node) (k : String) (f : Port → Port) (k' : String) :
    (n.modifyInputPort k f).GetOutputPort k' = n.GetOutputPort k' := rfl

/-- Modifying output ports leaves input-port lookups unchanged. -/
theorem getInputPort_modifyOutputPort (n : Node) (k : String) (f : Port → Port) (k' : String) :
    (n.modifyOutputPort k f).GetInputPort k' = n.GetInputPort k' := rfl

/-- In-place port modifications keep the node id list of a graph. -/
theorem modifyNode_map_id (g : Graph) (i : UUID) (f : Node → Node)
    (hf : ∀ n, (f n).id = n.id) :
    (g.modifyNode i f).nodes.map Node.id = g.nodes.map Node.id := by
  unfold Graph.modifyNode
  rw [List.map_map]
  congr 1
  funext n
  by_cases h : (n.id == i) = true <;> simp [Function.comp, h, hf]

/-- The node loop of `from_json` never touches the connections table. -/
theorem fromPortableNodes_connections (f : Factory) (g : Graph) (pns : List PortableNode) :
    (Graph.fromPortableNodes f g pns).connections = g.connections := by
  induction pns generalizing g with
  | nil => rfl
  | cons pn rest ih =>
    have hstep : (Graph.restoreNode f g pn).connections = g.connections := by
      unfold Graph.restoreNode
      split
      · rfl
      · split
        · rfl
        · unfold Graph.AddNode
          split <;> rfl
    have hfold : Graph.fromPortableNodes f g (pn :: rest)
        = Graph.fromPortableNodes f (Graph.restoreNode f g pn) rest := rfl
    rw [hfold, ih, hstep]

/-- The combined connect transformation preserves node ids. -/
theorem connectTransform_id (sId : UUID) (sk : String) (eId : UUID) (ek : String) (n : Node) :
    (connectTransform sId sk eId ek n).id = n.id := by
  unfold connectTransform
  split
  · split <;> rfl
  · split <;> rfl

/-- Node lookup after a successful connect. -/
theorem getNode_after_connect (g g1 : Graph) (sId : UUID) (sk : String) (eId : UUID)
    (ek : String) (hnodes : g1.nodes = g.nodes.map (connectTransform sId sk eId ek)) (j : UUID) :
    g1.GetNode j = (g.GetNode j).map (connectTransform sId sk eId ek) := by
  unfold Graph.GetNode
  rw [hnodes]
  exact find?_map_congr _ _ _ (fun n => by rw [connectTransform_id])

/-- The connect transformation flips flags only, so output-port existence
is unchanged. -/
theorem connectTransform_outputPort (sId : UUID) (sk : String) (eId : UUID) (ek : String)
    (n : Node) (k : String) :
    ((connectTransform sId sk eId ek n).GetOutputPort k).isSome
      = (n.GetOutputPort k).isSome := by
  unfold connectTransform
  split
  · split
    · rw [getOutputPort_modifyInputPort,
        getOutputPort_modifyOutputPort n sk connectPort (fun p => rfl) k]
      simp
    · rw [getOutputPort_modifyOutputPort n sk connectPort (fun p => rfl) k]
      simp
  · split
    · rw [getOutputPort_modifyInputPort]
    · rfl

/-- The connect transformation leaves the connected flag of every input
port other than the end port `(eId, ek)` unchanged. -/
theorem connectTransform_inputFlag (sId : UUID) (sk : String) (eId : UUID) (ek : String)
    (n : Node) (k : String) (hne : ¬(n.id = eId ∧ k = ek)) :
    ((connectTransform sId sk eId ek n).GetInputPort k).map Port.connected
      = (n.GetInputPort k).map Port.connected := by
  have hinner : (if n.id == sId then n.modifyOutputPort sk connectPort else n).GetInputPort k
      = n.GetInputPort k := by
    split
    · exact getInputPort_modifyOutputPort n sk connectPort k
    · rfl
  have hinnerId : (if n.id == sId then n.modifyOutputPort sk connectPort else n).id = n.id := by
    split <;> rfl
  unfold connectTransform
  by_cases h2 : ((if n.id == sId then n.modifyOutputPort sk connectPort else n).id == eId) = true
  · rw [if_pos h2]
    have hid2 : n.id = eId := by
      rw [hinnerId] at h2
      simpa using h2
    have hkne : k ≠ ek := fun hk => hne ⟨hid2, hk⟩
    rw [getInputPort_modifyInputPort _ ek connectPort (fun p => rfl) k, hinner]
    rcases hp : n.GetInputPort k with _ | p
    · rfl
    · have hkey : p.key = k := getInputPort_key hp
      simp [hkey, hkne]
  · rw [if_neg h2, hinner]

/-- Output-port existence survives a successful connect. -/
theorem outputPort_isSome_after_connect (g g1 : Graph) (sId : UUID) (sk : String)
    (eId : UUID) (ek : String)
    (hnodes : g1.nodes = g.nodes.map (connectTransform sId sk eId ek)) (j : UUID) (k : String) :
    ((g1.GetNode j).bind (fun n => n.GetOutputPort k)).isSome
      = ((g.GetNode j).bind (fun n => n.GetOutputPort k)).isSome := by
  rw [getNode_after_connect g g1 sId sk eId ek hnodes j]
  rcases g.GetNode j with _ | n
  · rfl
  · exact connectTransform_outputPort sId sk eId ek n k

/-- The connected flag of every input port other than the connect's end
port survives a successful connect. -/
theorem inputFlag_after_connect (g g1 : Graph) (sId : UUID) (sk : String)
    (eId : UUID) (ek : String)
    (hnodes : g1.nodes = g.nodes.map (connectTransform sId sk eId ek)) (j : UUID) (k : String)
    (hne : ¬(j = eId ∧ k = ek)) :
    ((g1.GetNode j).bind (fun n => n.GetInputPort k)).map Port.connected
      = ((g.GetNode j).bind (fun n => n.GetInputPort k)).map Port.connected := by
  rw [getNode_after_connect g g1 sId sk eId ek hnodes j]
  rcases hn : g.GetNode j with _ | n
  · rfl
  · have hid : n.id = j := getNode_id hn
    refine connectTransform_inputFlag sId sk eId ek n k ?_
    intro hpair
    apply hne
    constructor
    · rw [← hid]
      exact hpair.1
    · exact hpair.2

/-- The connection loop of `from_json` succeeds and re-adds every listed
connection when the graph it starts from has every start node with its
output port and every end node with its input port still unconnected, and
the listed end ports are pairwise distinct. -/
theorem fromPortableConns_spec (pcs : List PortableConnection) (g : Graph)
    (hout : ∀ pc ∈ pcs,
      ((g.GetNode pc.inId).bind (fun n => n.GetOutputPort pc.inVarName)).isSome = true)
    (hin : ∀ pc ∈ pcs,
      ((g.GetNode pc.outId).bind (fun n => n.GetInputPort pc.outVarName)).map Port.connected
        = some false)
    (hdup : (pcs.map (fun pc => (pc.outId, pc.outVarName))).Nodup) :
    ∃ g', Graph.fromPortableConns g pcs = .ok g'
      ∧ g'.connections = g.connections
          ++ pcs.map (fun pc => ⟨pc.inId, pc.inVarName, pc.outId, pc.outVarName⟩)
      ∧ g'.nodes.map Node.id = g.nodes.map Node.id := by
  induction pcs generalizing g with
  | nil => exact ⟨g, rfl, by simp, rfl⟩
  | cons pc rest ih =>
    have hout0 := hout pc (List.mem_cons_self _ _)
    have hin0 := hin pc (List.mem_cons_self _ _)
    rcases hsn : g.GetNode pc.inId with _ | sn
    · rw [hsn] at hout0
      simp at hout0
    rcases hsp : sn.GetOutputPort pc.inVarName with _ | sp
    · rw [hsn] at hout0
      simp [hsp] at hout0
    rcases hen : g.GetNode pc.outId with _ | en
    · rw [hen] at hin0
      simp at hin0
    rcases hep : en.GetInputPort pc.outVarName with _ | ep
    · rw [hen] at hin0
      simp [hep] at hin0
    have hflag : ep.connected = false := by
      rw [hen] at hin0
      simp [hep] at hin0
      exact hin0
    obtain ⟨g1, hok, hconns1, hnodes1⟩ :=
      connectNodes_success g pc.inId pc.outId pc.inVarName pc.outVarName sn en sp ep
        hsn hen hsp hep hflag
    have hfold : Graph.fromPortableConns g (pc :: rest) = Graph.fromPortableConns g1 rest := by
      show (match g.ConnectNodes pc.inId pc.inVarName pc.outId pc.outVarName with
            | .error e => .error e
            | .ok r => Graph.fromPortableConns r.1 rest) = Graph.fromPortableConns g1 rest
      rw [hok]
    have hout1 : ∀ pc2 ∈ rest,
        ((g1.GetNode pc2.inId).bind (fun n => n.GetOutputPort pc2.inVarName)).isSome = true := by
      intro pc2 hm
      rw [outputPort_isSome_after_connect g g1 pc.inId pc.inVarName pc.outId pc.outVarName
        hnodes1]
      exact hout pc2 (List.mem_cons_of_mem _ hm)
    have hin1 : ∀ pc2 ∈ rest,
        ((g1.GetNode pc2.outId).bind (fun n => n.GetInputPort pc2.outVarName)).map Port.connected
          = some false := by
      intro pc2 hm
      have hne2 : ¬(pc2.outId = pc.outId ∧ pc2.outVarName = pc.outVarName) := by
        intro hpair
        have hmem : (pc2.outId, pc2.outVarName)
            ∈ rest.map (fun q => (q.outId, q.outVarName)) :=
          List.mem_map_of_mem _ hm
        rw [hpair.1, hpair.2] at hmem
        exact (List.nodup_cons.mp hdup).1 hmem
      rw [inputFlag_after_connect g g1 pc.inId pc.inVarName pc.outId pc.outVarName hnodes1
        pc2.outId pc2.outVarName hne2]
      exact hin pc2 (List.mem_cons_of_mem _ hm)
    have hdup1 : (rest.map (fun pc2 => (pc2.outId, pc2.outVarName))).Nodup :=
      (List.nodup_cons.mp hdup).2
    obtain ⟨g2, hok2, hconns2, hnodes2⟩ := ih g1 hout1 hin1 hdup1
    refine ⟨g2, ?_, ?_, ?_⟩
    · rw [hfold]
      exact hok2
    · rw [hconns2, hconns1]
      simp
    · rw [hnodes2, hnodes1, List.map_map]
      congr 1
      funext n
      simp [Function.comp, connectTransform_id]

/-- Counterexample for claim C6: `seqFinal` is a graph whose three node
classes are all registered in `rtFactory`, yet its serialised form does
not deserialise to the same connection set — the second connection into
input `B.bi` is dropped, because `ConnectNodes` refuses an
already-connected input during the connection loop of `from_json`. -/
theorem roundtrip_claim_fails : ¬ ClaimedRoundTrip rtFactory := by
  intro h
  obtain ⟨g', hok, hnodes, hconns⟩ := h seqFinal (by decide)
  have hval : Graph.fromPortable rtFactory emptyGraph (Graph.toPortable seqFinal)
      = .ok rtBroken := rfl
  rw [hval] at hok
  have hg : rtBroken = g' := by injection hok
  have h2 := (hconns ⟨3, "co", 2, "bi"⟩).mpr (by decide)
  rw [← hg] at h2
  exact absurd h2 (by decide)

/-- Claim C6 (corrected): the round trip preserves the node-UUID set and
the connection 4-tuple set for graphs whose rebuilt node phase reproduces
the node ids (all classes registered, constructors honouring the id),
whose connections refer to ports that exist on the factory-built nodes,
and in which every input port has at most one incoming connection; the
counterexample shows the last condition cannot be dropped. -/
theorem roundTrip_preserves (f : Factory) (g : Graph)
    (hids : (Graph.nodePhase f g).nodes.map Node.id = g.nodes.map Node.id)
    (hout : ∀ c ∈ g.connections,
      (((Graph.nodePhase f g).GetNode c.startNode).bind
        (fun n => n.GetOutputPort c.startPort)).isSome = true)
    (hin : ∀ c ∈ g.connections,
      (((Graph.nodePhase f g).GetNode c.endNode).bind
        (fun n => n.GetInputPort c.endPort)).map Port.connected = some false)
    (hdup : (g.connections.map (fun c => (c.endNode, c.endPort))).Nodup) :
    ∃ g', Graph.fromPortable f emptyGraph (Graph.toPortable g) = .ok g'
      ∧ g'.nodes.map Node.id = g.nodes.map Node.id
      ∧ g'.connections = g.connections := by
  have hA : ∀ pc ∈ (Graph.toPortable g).connections,
      (((Graph.nodePhase f g).GetNode pc.inId).bind
        (fun n => n.GetOutputPort pc.inVarName)).isSome = true := by
    intro pc hpc
    obtain ⟨c, hc, hpceq⟩ := List.mem_map.mp hpc
    subst hpceq
    exact hout c hc
  have hB : ∀ pc ∈ (Graph.toPortable g).connections,
      (((Graph.nodePhase f g).GetNode pc.outId).bind
        (fun n => n.GetInputPort pc.outVarName)).map Port.connected = some false := by
    intro pc hpc
    obtain ⟨c, hc, hpceq⟩ := List.mem_map.mp hpc
    subst hpceq
    exact hin c hc
  have hC : (((Graph.toPortable g).connections).map
      (fun pc => (pc.outId, pc.outVarName))).Nodup := by
    show ((g.connections.map (fun c =>
        (⟨c.startNode, c.startPort, c.endNode, c.endPort⟩ : PortableConnection))).map
        (fun pc => (pc.outId, pc.outVarName))).Nodup
    rw [List.map_map]
    exact hdup
  obtain ⟨g', hok, hconns, hnodes⟩ := fromPortableConns_spec
    ((Graph.toPortable g).connections) (Graph.nodePhase f g) hA hB hC
  refine ⟨g', hok, ?_, ?_⟩
  · rw [hnodes, hids]
  · rw [hconns]
    have hc0 : (Graph.nodePhase f g).connections = [] := by
      unfold Graph.nodePhase
      rw [fromPortableNodes_connections]
      rfl
    rw [hc0, List.nil_append]
    show (g.connections.map (fun c =>
        (⟨c.startNode, c.startPort, c.endNode, c.endPort⟩ : PortableConnection))).map
        (fun pc => (⟨pc.inId, pc.inVarName, pc.outId, pc.outVarName⟩ : Connection))
      = g.connections
    rw [List.map_map]
    have hcomp : ((fun pc : PortableConnection =>
        (⟨pc.inId, pc.inVarName, pc.outId, pc.outVarName⟩ : Connection)) ∘
        fun c : Connection => (⟨c.startNode, c.startPort, c.endNode, c.endPort⟩ :
          PortableConnection)) = id := rfl
    rw [hcomp, List.map_id]

/-- Witness for the corrected C6 theorem on a concrete two-node,
one-connection graph built from the registered factory classes. -/
theorem roundTrip_preserves_witness :
    ∃ g', Graph.fromPortable rtFactory emptyGraph (Graph.toPortable rtSmallGraph) = .ok g'
      ∧ g'.nodes.map Node.id = rtSmallGraph.nodes.map Node.id
      ∧ g'.connections = rtSmallGraph.connections :=
  roundTrip_preserves rtFactory rtSmallGraph (by decide) (by decide) (by decide) (by decide)

end Flow
